import Mathlib

/-! The configuration header `ledgend-setup.h`.

A verification development for the configuration header
`ledgend-src/ledgend-setup.h` of the Art-Net / FastLED ESP32 firmware.

The header is eighteen lines of C++: an include guard, two global
`const char*` variables initialised with string literals, and two
object-like `#define`s.  Its meaning is what the C preprocessor and the
declaration reader make of it, so the embedding consists of

* the header itself, line for line (`header`, `ledgend_setup_h`),
* a small model of the preprocessor directives the header uses
  (`#ifndef`, `#define`, `#endif`, text lines with object-like
  replacement), and
* the value of a string literal (escape sequences) and the C string a
  `const char*` exposes (the characters up to the first NUL),
* a reader for the one declaration shape the header uses
  (`const char* NAME = "LITERAL";`), and
* the statements by which code that includes the header can read or try to
  change the four values, checked against the types the header declares.
-/

namespace Ledgend

/-! ## Preprocessing tokens and lines -/

/-- Preprocessing tokens, as far as the header needs them.  A string literal
is kept by its spelling: the characters written between the two quotes. -/
inductive Tok where
  | ident (name : String)
  | num (value : Nat)
  | str (spelling : String)
  | punct (sym : String)
  deriving DecidableEq, Repr

/-- One logical source line (`ifUndefined` is the directive `#ifndef`):
a directive, a comment-only or blank line, or a line of ordinary text. -/
inductive Line where
  | ifUndefined (name : String)
  | define (name : String) (body : List Tok)
  | endif
  | comment (text : String)
  | blank
  | text (toks : List Tok)
  deriving DecidableEq, Repr

/-- Table of object-like definitions: name and replacement list. -/
abbrev Defs := List (String × List Tok)

/-- State of a translation unit while it is being preprocessed: the
definitions currently in force and the text lines emitted so far (oldest
first). -/
structure TU where
  defs : Defs
  out : List (List Tok)
  deriving DecidableEq, Repr

/-- The translation unit before any line has been read. -/
def TU.empty : TU := ⟨[], []⟩

/-! ## The header -/

/-- The header text with its four editable values left open: the two string
literals of lines 5 and 6 (what is written between the quotes) and the two
integer literals of lines 11 and 16.  Entry `i` of the list is line `i + 1`
of `ledgend-setup.h`. -/
def header (ssidLit passwordLit : String) (allowInterrupts ringbufferSize : Nat) :
    List Line :=
  [ .ifUndefined "LEDGEND_SETUP",
    .define "LEDGEND_SETUP" [],
    .blank,
    .comment " Wifi settings",
    .text [.ident "const", .ident "char", .punct "*", .ident "ssid", .punct "=",
           .str ssidLit, .punct ";"],
    .text [.ident "const", .ident "char", .punct "*", .ident "password", .punct "=",
           .str passwordLit, .punct ";"],
    .blank,
    .comment " if there is significant package loss you can try to allow this",
    .comment " but usually ~900-1000 packets/second should be fine",
    .comment " which is around 5000-5500 leds @ 30fps",
    .define "FASTLED_ALLOW_INTERRUPTS" [.num allowInterrupts],
    .blank,
    .comment " this buffer is used to prevent that frame data is not overridden before it",
    .comment " is actually written to led strips first. this will smoothen out stuff if wifi",
    .comment " burst in lots of packets very fast.",
    .define "INCOMING_DMX_RINGBUFFER_SIZE" [.num ringbufferSize],
    .blank,
    .endif ]

/-- The header as shipped: `"<ssid>"`, `"<password>"`, `0` and `3`. -/
def ledgend_setup_h : List Line :=
  header "<ssid>" "<password>" 0 3

/-! ## Preprocessor -/

/-- Replacement list currently bound to a name, if any. -/
def lookupDef (x : String) : Defs → Option (List Tok)
  | [] => none
  | (y, body) :: rest => if x = y then some body else lookupDef x rest

/-- Whether a name is currently defined (what `#ifndef` tests). -/
def isDefined (x : String) (ds : Defs) : Bool :=
  (lookupDef x ds).isSome

/-- Remove every definition of a name. -/
def undefine (x : String) (ds : Defs) : Defs :=
  ds.filter (fun d => decide (d.1 ≠ x))

/-- Effect of `#define x body`: the new replacement list takes the place of
any earlier one. -/
def addDef (x : String) (body : List Tok) (ds : Defs) : Defs :=
  (x, body) :: undefine x ds

/-- Replacement of one token.  An identifier bound to a replacement list is
replaced by that list, which is rescanned with the name itself no longer
available for replacement.  Every nested replacement removes one bound name
from the table, so `fuel` equal to the table length is never exhausted before
the table is (see `expandTok_fuel`). -/
def expandTok : Nat → Defs → Tok → List Tok
  | fuel + 1, ds, .ident x =>
      match lookupDef x ds with
      | none => [.ident x]
      | some body => body.flatMap (fun t => expandTok fuel (undefine x ds) t)
  | _, _, t => [t]

/-- Replacement over a whole text line. -/
def expand (ds : Defs) (toks : List Tok) : List Tok :=
  toks.flatMap (expandTok ds.length ds)

/-- Whether the current line lies in an active group: every enclosing
conditional was taken. -/
def active (conds : List Bool) : Bool :=
  conds.all id

/-- One line of preprocessing.  `conds` is the stack of enclosing
conditionals, innermost first, `true` for a group that is being kept.  In a
skipped group only the nesting of conditionals is followed. -/
def step : TU × List Bool → Line → TU × List Bool
  | (tu, conds), .ifUndefined x =>
      (tu, (active conds && !isDefined x tu.defs) :: conds)
  | (tu, conds), .endif => (tu, conds.tail)
  | (tu, conds), .define x body =>
      if active conds then ({ tu with defs := addDef x body tu.defs }, conds)
      else (tu, conds)
  | (tu, conds), .text toks =>
      if active conds then ({ tu with out := tu.out ++ [expand tu.defs toks] }, conds)
      else (tu, conds)
  | (tu, conds), .comment _ => (tu, conds)
  | (tu, conds), .blank => (tu, conds)

/-- Preprocess the lines of one file, starting outside any conditional. -/
def runLines (file : List Line) (tu : TU) : TU × List Bool :=
  file.foldl step (tu, [])

/-- Effect of `#include`-ing a file at a point where the translation unit is
in state `tu`. -/
def includeFile (file : List Line) (tu : TU) : TU :=
  (runLines file tu).1

/-- Include the same file `n` times in a row. -/
def includeTimes (file : List Line) : Nat → TU → TU
  | 0, tu => tu
  | n + 1, tu => includeFile file (includeTimes file n tu)

/-! ## String literals and C strings -/

/-- UTF-8 encoding of a code point: the bytes a character of the source text
contributes to a string literal. -/
def utf8 (n : Nat) : List Nat :=
  if n < 0x80 then [n]
  else if n < 0x800 then [0xC0 + n / 0x40, 0x80 + n % 0x40]
  else if n < 0x10000 then [0xE0 + n / 0x1000, 0x80 + n / 0x40 % 0x40, 0x80 + n % 0x40]
  else [0xF0 + n / 0x40000, 0x80 + n / 0x1000 % 0x40, 0x80 + n / 0x40 % 0x40, 0x80 + n % 0x40]

/-- The code points of a piece of source text. -/
def codes (s : String) : List Nat :=
  s.toList.map Char.toNat

/-- The bytes of a piece of text, each character UTF-8 encoded. -/
def bytesOf (s : String) : List Nat :=
  (codes s).flatMap utf8

/-- Where the reader of a string literal stands: in plain text, right after a
backslash, inside an octal escape (value so far, digits so far), right after
`\x`, or inside a hexadecimal escape (value so far). -/
inductive LitMode where
  | plain
  | esc
  | oct (value digits : Nat)
  | hexStart
  | hex (value : Nat)
  deriving DecidableEq, Repr

/-- Value of an octal digit `0`..`7`. -/
def octDigit (c : Nat) : Option Nat :=
  if 48 ≤ c ∧ c ≤ 55 then some (c - 48) else none

/-- Value of a hexadecimal digit `0`..`9`, `a`..`f`, `A`..`F`. -/
def hexDigit (c : Nat) : Option Nat :=
  if 48 ≤ c ∧ c ≤ 57 then some (c - 48)
  else if 97 ≤ c ∧ c ≤ 102 then some (c - 87)
  else if 65 ≤ c ∧ c ≤ 70 then some (c - 55)
  else none

/-- The simple escape sequences: the character after the backslash and the
byte it stands for. -/
def simpleEscape : Nat → Option Nat
  | 39 => some 39    -- \'
  | 34 => some 34    -- \"
  | 63 => some 63    -- \?
  | 92 => some 92    -- \\
  | 97 => some 7     -- \a
  | 98 => some 8     -- \b
  | 102 => some 12   -- \f
  | 110 => some 10   -- \n
  | 114 => some 13   -- \r
  | 116 => some 9    -- \t
  | 118 => some 11   -- \v
  | _ => none

/-- Append the byte of a numeric escape; a value that does not fit a `char`
is not given a meaning. -/
def emitByte (acc : List Nat) (v : Nat) : Option (List Nat) :=
  if v ≤ 255 then some (acc ++ [v]) else none

/-- One character of plain text inside a literal: a backslash opens an
escape, a double quote or a line end cannot occur, anything else contributes
its UTF-8 bytes (source and execution character set are both UTF-8, the
default of the GCC toolchain the firmware is built with; trigraphs are off
by default there and are not replaced). -/
def plainStep (acc : List Nat) (c : Nat) : Option (List Nat × LitMode) :=
  if c = 92 then some (acc, .esc)
  else if c = 34 ∨ c = 10 ∨ c = 13 then none
  else some (acc ++ utf8 c, .plain)

/-- One character of a literal's spelling.  An octal escape has at most three
digits, a hexadecimal escape takes every hexadecimal digit that follows.
Universal character names (`\u`, `\U`) and escapes the language leaves to
the implementation are not given a value. -/
def litStep : List Nat × LitMode → Nat → Option (List Nat × LitMode)
  | (acc, .plain), c => plainStep acc c
  | (acc, .esc), c =>
      match simpleEscape c with
      | some b => some (acc ++ [b], .plain)
      | none =>
        match octDigit c with
        | some d => some (acc, .oct d 1)
        | none => if c = 120 then some (acc, .hexStart) else none
  | (acc, .oct v k), c =>
      match octDigit c with
      | some d =>
        if k < 3 then some (acc, .oct (8 * v + d) (k + 1))
        else (emitByte acc v).bind (fun acc1 => plainStep acc1 c)
      | none => (emitByte acc v).bind (fun acc1 => plainStep acc1 c)
  | (acc, .hexStart), c => (hexDigit c).map (fun d => (acc, .hex d))
  | (acc, .hex v), c =>
      match hexDigit c with
      | some d => some (acc, .hex (16 * v + d))
      | none => (emitByte acc v).bind (fun acc1 => plainStep acc1 c)

/-- Read a spelling from left to right. -/
def litRun : List Nat × LitMode → List Nat → Option (List Nat × LitMode)
  | st, [] => some st
  | st, c :: rest => (litStep st c).bind (fun st1 => litRun st1 rest)

/-- At the closing quote: a pending numeric escape is completed, a lone
backslash or `\x` without digits is not a literal. -/
def litFinish : List Nat × LitMode → Option (List Nat)
  | (acc, .plain) => some acc
  | (acc, .oct v _) => emitByte acc v
  | (acc, .hex v) => emitByte acc v
  | (_, .esc) => none
  | (_, .hexStart) => none

/-- Value of a string literal with the given spelling: its bytes after escape
processing, without the terminating NUL. -/
def litValue (spelling : String) : Option (List Nat) :=
  (litRun ([], .plain) (codes spelling)).bind litFinish

/-- Whether a spelling uses no escape sequence and is free of characters a
literal cannot hold unescaped (backslash, double quote, line ends). -/
def isPlain (spelling : String) : Bool :=
  (codes spelling).all (fun c => decide (c ≠ 92 ∧ c ≠ 34 ∧ c ≠ 10 ∧ c ≠ 13))

/-- The C string a `const char*` exposes when it points to the start of
`array`: the bytes before the first NUL. -/
def cString (array : List Nat) : List Nat :=
  array.takeWhile (fun b => decide (b ≠ 0))

/-! ## Reading the result -/

/-- A global pointer to `const char` together with the array its
string-literal initialiser creates (the literal's value followed by a NUL)
and whether the pointer itself is declared `const`. -/
structure Global where
  name : String
  array : List Nat
  pointerConst : Bool
  deriving DecidableEq, Repr

/-- Read a declaration of the shape `const char* NAME = "LITERAL";`, the shape
of lines 5 and 6 of the header, or `const char* const NAME = "LITERAL";`. -/
def readDecl : List Tok → Option Global
  | [.ident "const", .ident "char", .punct "*", .ident x, .punct "=", .str lit, .punct ";"] =>
      (litValue lit).map (fun v => ⟨x, v ++ [0], false⟩)
  | [.ident "const", .ident "char", .punct "*", .ident "const", .ident x, .punct "=",
      .str lit, .punct ";"] =>
      (litValue lit).map (fun v => ⟨x, v ++ [0], true⟩)
  | _ => none

/-- The globals declared by the emitted text. -/
def globals (tu : TU) : List Global :=
  tu.out.filterMap readDecl

/-- The C string the global called `x` exposes at start-up. -/
def globalValue (tu : TU) (x : String) : Option (List Nat) :=
  ((globals tu).find? (fun g => decide (g.name = x))).map (fun g => cString g.array)

/-- Integer a name stands for where it is used after the point `tu`: the
name is replaced and the result must be a single integer literal. -/
def constValue (tu : TU) (x : String) : Option Nat :=
  match expand tu.defs [.ident x] with
  | [.num n] => some n
  | _ => none

/-- Value exposed as `ssid`. -/
def ssid (tu : TU) : Option (List Nat) := globalValue tu "ssid"

/-- Value exposed as `password`. -/
def password (tu : TU) : Option (List Nat) := globalValue tu "password"

/-- Value of `FASTLED_ALLOW_INTERRUPTS`. -/
def FASTLED_ALLOW_INTERRUPTS (tu : TU) : Option Nat :=
  constValue tu "FASTLED_ALLOW_INTERRUPTS"

/-- Value of `INCOMING_DMX_RINGBUFFER_SIZE`. -/
def INCOMING_DMX_RINGBUFFER_SIZE (tu : TU) : Option Nat :=
  constValue tu "INCOMING_DMX_RINGBUFFER_SIZE"

/-- Whether the include guard `LEDGEND_SETUP` is defined. -/
def LEDGEND_SETUP (tu : TU) : Bool := isDefined "LEDGEND_SETUP" tu.defs

/-- Whether an emitted line mentions the identifier `x`. -/
def mentions (x : String) (line : List Tok) : Bool :=
  line.any (fun t => decide (t = .ident x))

/-- A translation unit into which the header can be included without
interference: the guard is not yet defined, none of the identifiers of the
two declaration lines is bound to a replacement list, and the text emitted
so far does not mention `ssid` or `password` at all. -/
def fresh (tu : TU) : Bool :=
  !LEDGEND_SETUP tu
    && !isDefined "const" tu.defs && !isDefined "char" tu.defs
    && !isDefined "ssid" tu.defs && !isDefined "password" tu.defs
    && tu.out.all (fun l => !mentions "ssid" l && !mentions "password" l)

/-! ## Code that uses the header -/

/-- What a name denotes in code placed after the point `tu`: an integer (the
name is replaced by an integer literal), one of the declared pointer
variables, or neither. -/
inductive Denotes where
  | constant (n : Nat)
  | pointer (g : Global)
  | nothing
  deriving DecidableEq, Repr

/-- Resolve a name: replacement first, then the declarations. -/
def resolve (tu : TU) (x : String) : Denotes :=
  match expand tu.defs [.ident x] with
  | [.num n] => .constant n
  | [.ident y] =>
      match (globals tu).find? (fun g => decide (g.name = y)) with
      | some g => .pointer g
      | none => .nothing
  | _ => .nothing

/-- The statements by which code can use or try to change a configuration
value: `read x` uses the value of `x` in an expression, `assign x lit` is the
statement `x = "lit";`. -/
inductive Stmt where
  | read (x : String)
  | assign (x : String) (lit : String)
  deriving DecidableEq, Repr

/-- A statement after compilation: an integer in the code, a load of a
pointer variable, or a store to a pointer variable. -/
inductive Op where
  | readInt (n : Nat)
  | readPtr (g : String)
  | setPtr (g : String) (array : List Nat)
  deriving DecidableEq, Repr

/-- Check one statement against the declarations and translate it.  An
assignment is accepted only when its left side is a pointer variable that is
not declared `const`: an integer literal cannot be assigned to, and neither
can a `const` pointer. -/
def compile (tu : TU) : Stmt → Option Op
  | .read x =>
      match resolve tu x with
      | .constant n => some (.readInt n)
      | .pointer g => some (.readPtr g.name)
      | .nothing => none
  | .assign x lit =>
      match resolve tu x with
      | .pointer g =>
          if g.pointerConst then none
          else (litValue lit).map (fun v => .setPtr g.name (v ++ [0]))
      | .constant _ => none
      | .nothing => none

/-- Compile a sequence of statements; every one has to be accepted. -/
def compileAll (tu : TU) : List Stmt → Option (List Op)
  | [] => some []
  | s :: rest =>
      match compile tu s, compileAll tu rest with
      | some op, some ops => some (op :: ops)
      | _, _ => none

/-- Run-time state: for each pointer variable the array it points to. -/
structure Runtime where
  vars : List (String × List Nat)
  deriving DecidableEq, Repr

/-- State at power-up: every global points to the array of its initialiser. -/
def boot (tu : TU) : Runtime :=
  ⟨(globals tu).map (fun g => (g.name, g.array))⟩

/-- The array a pointer variable currently points to. -/
def Runtime.pointee (r : Runtime) (g : String) : Option (List Nat) :=
  (r.vars.find? (fun v => decide (v.1 = g))).map Prod.snd

/-- Make a pointer variable point to another array. -/
def Runtime.set (r : Runtime) (g : String) (array : List Nat) : Runtime :=
  ⟨r.vars.map (fun v => if v.1 = g then (g, array) else v)⟩

/-- What an operation hands back: an integer or a C string. -/
inductive Value where
  | int (n : Nat)
  | text (s : Option (List Nat))
  deriving DecidableEq, Repr

/-- Execute one operation: the state afterwards and the value of the
expression. -/
def Runtime.exec (r : Runtime) : Op → Runtime × Value
  | .readInt n => (r, .int n)
  | .readPtr g => (r, .text ((r.pointee g).map cString))
  | .setPtr g array => (r.set g array, .text (some (cString array)))

/-- Execute a sequence of operations. -/
def Runtime.run (r : Runtime) (ops : List Op) : Runtime :=
  ops.foldl (fun st op => (st.exec op).1) r

/-- Whether a sequence of operations stores to the pointer variable `g`. -/
def assigns (g : String) (ops : List Op) : Bool :=
  ops.any (fun op =>
    match op with
    | .setPtr g1 _ => decide (g1 = g)
    | _ => false)

/-- The value the name `x` has for code compiled after the point `tu` and
executed in state `st`. -/
def valueOf (tu : TU) (st : Runtime) (x : String) : Option Value :=
  (compile tu (.read x)).map (fun op => (st.exec op).2)

/-! ## Basic facts about the definition table -/

theorem lookupDef_of_not_defined {x : String} {ds : Defs} (h : isDefined x ds = false) :
    lookupDef x ds = none := by
  unfold isDefined at h
  cases hl : lookupDef x ds with
  | none => rfl
  | some b => rw [hl] at h; cases h

theorem lookupDef_undefine_ne {x y : String} (h : x ≠ y) (ds : Defs) :
    lookupDef x (undefine y ds) = lookupDef x ds := by
  induction ds with
  | nil => rfl
  | cons d rest ih =>
    obtain ⟨z, body⟩ := d
    by_cases hz : z = y
    · subst hz
      have hx : ¬ x = z := h
      simp [undefine, lookupDef, hx] at ih ⊢
      exact ih
    · by_cases hxz : x = z
      · simp [undefine, lookupDef, hz, hxz]
      · simp [undefine, lookupDef, hz, hxz] at ih ⊢
        exact ih

theorem lookupDef_undefine_self (x : String) (ds : Defs) :
    lookupDef x (undefine x ds) = none := by
  induction ds with
  | nil => rfl
  | cons d rest ih =>
    obtain ⟨z, body⟩ := d
    by_cases hz : z = x
    · simp [undefine, hz] at ih ⊢
      exact ih
    · have hxz : ¬ x = z := fun h => hz h.symm
      simp [undefine, lookupDef, hz, hxz] at ih ⊢
      exact ih

theorem lookupDef_addDef_self (x : String) (body : List Tok) (ds : Defs) :
    lookupDef x (addDef x body ds) = some body := by
  simp [addDef, lookupDef]

theorem lookupDef_addDef_ne {x y : String} (h : x ≠ y) (body : List Tok) (ds : Defs) :
    lookupDef x (addDef y body ds) = lookupDef x ds := by
  simp [addDef, lookupDef, h, lookupDef_undefine_ne h]

theorem undefine_length_lt {x : String} {ds : Defs} {body : List Tok}
    (h : lookupDef x ds = some body) : (undefine x ds).length < ds.length := by
  induction ds with
  | nil => simp [lookupDef] at h
  | cons d rest ih =>
    obtain ⟨z, b⟩ := d
    by_cases hz : z = x
    · have hle : (undefine x rest).length ≤ rest.length := List.length_filter_le _ _
      simp only [undefine, List.filter, hz, ne_eq, not_true_eq_false, decide_False,
        List.length_cons] at hle ⊢
      omega
    · have hxz : ¬ x = z := fun e => hz e.symm
      simp only [lookupDef, hxz, if_false] at h
      have := ih h
      simp only [undefine, List.filter, ne_eq, hz, not_false_eq_true, decide_True,
        List.length_cons] at this ⊢
      omega

/-! ## Replacement -/

theorem expandTok_num (fuel : Nat) (ds : Defs) (n : Nat) :
    expandTok fuel ds (.num n) = [.num n] := by
  cases fuel <;> rfl

theorem expandTok_str (fuel : Nat) (ds : Defs) (s : String) :
    expandTok fuel ds (.str s) = [.str s] := by
  cases fuel <;> rfl

theorem expandTok_punct (fuel : Nat) (ds : Defs) (s : String) :
    expandTok fuel ds (.punct s) = [.punct s] := by
  cases fuel <;> rfl

theorem expandTok_undefined {fuel : Nat} {ds : Defs} {x : String}
    (h : lookupDef x ds = none) : expandTok fuel ds (.ident x) = [.ident x] := by
  cases fuel with
  | zero => rfl
  | succ k => simp [expandTok, h]

/-- The fuel of `expand` is enough: any two amounts of fuel that are at least
the length of the table give the same replacement. -/
theorem expandTok_fuel (f : Nat) : ∀ (g : Nat) (ds : Defs) (t : Tok),
    ds.length ≤ f → ds.length ≤ g → expandTok f ds t = expandTok g ds t := by
  induction f with
  | zero =>
    intro g ds t hf _
    have hnil : ds = [] := List.length_eq_zero.mp (Nat.le_zero.mp hf)
    subst hnil
    cases t with
    | ident x =>
      have hx : lookupDef x [] = none := rfl
      rw [expandTok_undefined hx, expandTok_undefined hx]
    | num n => rw [expandTok_num, expandTok_num]
    | str s => rw [expandTok_str, expandTok_str]
    | punct s => rw [expandTok_punct, expandTok_punct]
  | succ k ih =>
    intro g ds t hf hg
    cases t with
    | num n => rw [expandTok_num, expandTok_num]
    | str s => rw [expandTok_str, expandTok_str]
    | punct s => rw [expandTok_punct, expandTok_punct]
    | ident x =>
      cases hl : lookupDef x ds with
      | none => rw [expandTok_undefined hl, expandTok_undefined hl]
      | some body =>
        have hlt := undefine_length_lt hl
        cases g with
        | zero => omega
        | succ j =>
          simp only [expandTok, hl]
          congr 1
          funext t
          exact ih j (undefine x ds) t (by omega) (by omega)

/-! ## What including the header does -/

/-- With the guard already defined, the whole body of the header is skipped. -/
theorem include_header_guarded (s p : String) (a n : Nat) (tu : TU)
    (h : LEDGEND_SETUP tu = true) : includeFile (header s p a n) tu = tu := by
  simp only [LEDGEND_SETUP] at h
  simp [includeFile, runLines, header, step, active, h]

/-- With the guard not yet defined, the header defines the guard, emits its
two declaration lines (read under the definitions then in force) and defines
the two constants. -/
theorem include_header_unguarded (s p : String) (a n : Nat) (tu : TU)
    (h : LEDGEND_SETUP tu = false) :
    includeFile (header s p a n) tu =
      { defs := addDef "INCOMING_DMX_RINGBUFFER_SIZE" [.num n]
                  (addDef "FASTLED_ALLOW_INTERRUPTS" [.num a]
                    (addDef "LEDGEND_SETUP" [] tu.defs)),
        out := tu.out ++
          [expand (addDef "LEDGEND_SETUP" [] tu.defs)
             [.ident "const", .ident "char", .punct "*", .ident "ssid", .punct "=",
              .str s, .punct ";"],
           expand (addDef "LEDGEND_SETUP" [] tu.defs)
             [.ident "const", .ident "char", .punct "*", .ident "password", .punct "=",
              .str p, .punct ";"]] } := by
  simp only [LEDGEND_SETUP] at h
  simp [includeFile, runLines, header, step, active, h]

/-- The conditionals of the header are balanced: after its last line no
conditional is left open. -/
theorem header_balanced (s p : String) (a n : Nat) (tu : TU) :
    (runLines (header s p a n) tu).2 = [] := by
  cases h : isDefined "LEDGEND_SETUP" tu.defs <;>
    simp [runLines, header, step, active, h]

/-- After the header has been included the guard is defined. -/
theorem guard_defined_after_include (s p : String) (a n : Nat) (tu : TU) :
    LEDGEND_SETUP (includeFile (header s p a n) tu) = true := by
  cases h : LEDGEND_SETUP tu with
  | true => rw [include_header_guarded s p a n tu h]; exact h
  | false =>
    rw [include_header_unguarded s p a n tu h]
    have h1 : ("LEDGEND_SETUP" : String) ≠ "INCOMING_DMX_RINGBUFFER_SIZE" := by decide
    have h2 : ("LEDGEND_SETUP" : String) ≠ "FASTLED_ALLOW_INTERRUPTS" := by decide
    simp only [LEDGEND_SETUP, isDefined]
    rw [lookupDef_addDef_ne h1, lookupDef_addDef_ne h2, lookupDef_addDef_self]
    rfl

/-- A text line none of whose identifiers is bound is left as it is. -/
theorem expand_unbound (ds : Defs) (toks : List Tok)
    (h : ∀ x, Tok.ident x ∈ toks → lookupDef x ds = none) : expand ds toks = toks := by
  unfold expand
  induction toks with
  | nil => rfl
  | cons t rest ih =>
    have hrest : ∀ x, Tok.ident x ∈ rest → lookupDef x ds = none :=
      fun x hx => h x (List.mem_cons_of_mem _ hx)
    have ht : expandTok ds.length ds t = [t] := by
      cases t with
      | ident x => exact expandTok_undefined (h x (List.mem_cons_self _ _))
      | num n => exact expandTok_num _ _ _
      | str s => exact expandTok_str _ _ _
      | punct s => exact expandTok_punct _ _ _
    rw [List.flatMap_cons, ht, ih hrest]
    rfl

/-- In a fresh translation unit the declaration line of the header for the
global `x` (one of `ssid`, `password`) passes through replacement unchanged,
also after the guard has been defined. -/
theorem expand_decl_fresh (tu : TU) (x v : String)
    (hconst : isDefined "const" tu.defs = false) (hchar : isDefined "char" tu.defs = false)
    (hx : isDefined x tu.defs = false) (hg : x ≠ "LEDGEND_SETUP") :
    expand (addDef "LEDGEND_SETUP" [] tu.defs)
        [.ident "const", .ident "char", .punct "*", .ident x, .punct "=", .str v, .punct ";"]
      = [.ident "const", .ident "char", .punct "*", .ident x, .punct "=", .str v, .punct ";"] := by
  apply expand_unbound
  intro y hy
  have hconst := lookupDef_of_not_defined hconst
  have hchar := lookupDef_of_not_defined hchar
  have hx := lookupDef_of_not_defined hx
  simp only [List.mem_cons, Tok.ident.injEq, List.mem_singleton, reduceCtorEq, false_or,
    or_false, List.not_mem_nil] at hy
  rcases hy with rfl | rfl | rfl
  · rw [lookupDef_addDef_ne (by decide)]; exact hconst
  · rw [lookupDef_addDef_ne (by decide)]; exact hchar
  · rw [lookupDef_addDef_ne hg]; exact hx

/-! ## String literals -/

theorem litRun_plain (cs : List Nat) :
    ∀ acc : List Nat, (∀ c ∈ cs, c ≠ 92 ∧ c ≠ 34 ∧ c ≠ 10 ∧ c ≠ 13) →
      litRun (acc, .plain) cs = some (acc ++ cs.flatMap utf8, .plain) := by
  induction cs with
  | nil => intro acc _; simp [litRun]
  | cons c rest ih =>
    intro acc h
    obtain ⟨h1, h2, h3, h4⟩ := h c (List.mem_cons_self _ _)
    have hrest : ∀ d ∈ rest, d ≠ 92 ∧ d ≠ 34 ∧ d ≠ 10 ∧ d ≠ 13 :=
      fun d hd => h d (List.mem_cons_of_mem _ hd)
    simp [litRun, litStep, plainStep, h1, h2, h3, h4, ih _ hrest]

/-- A literal written without escape sequences has the bytes of its text as
its value. -/
theorem litValue_plain (s : String) (h : isPlain s = true) : litValue s = some (bytesOf s) := by
  have hall : ∀ c ∈ codes s, c ≠ 92 ∧ c ≠ 34 ∧ c ≠ 10 ∧ c ≠ 13 := by
    intro c hc
    have := List.all_eq_true.mp h c hc
    simpa using this
  simp [litValue, litRun_plain (codes s) [] hall, litFinish, bytesOf]

/-- A value without NUL is exposed whole. -/
theorem cString_append_nul (v : List Nat) (h : 0 ∉ v) : cString (v ++ [0]) = v := by
  induction v with
  | nil => simp [cString]
  | cons b rest ih =>
    have hb : b ≠ 0 := fun e => h (e ▸ List.mem_cons_self _ _)
    have hrest : 0 ∉ rest := fun e => h (List.mem_cons_of_mem _ e)
    have := ih hrest
    simp only [cString] at this ⊢
    simp only [List.cons_append, List.takeWhile, hb, ne_eq, not_false_eq_true, decide_True]
    exact congrArg (List.cons b) this

/-- In general the exposed string is the part of the value before its first
NUL. -/
theorem cString_append_nul_eq (v : List Nat) :
    cString (v ++ [0]) = v.takeWhile (fun b => decide (b ≠ 0)) := by
  induction v with
  | nil => simp [cString]
  | cons b rest ih =>
    simp only [cString] at ih ⊢
    by_cases hb : b = 0
    · simp [List.takeWhile, hb]
    · simp only [List.cons_append, List.takeWhile, hb, ne_eq, not_false_eq_true, decide_True]
      exact congrArg (List.cons b) ih

/-! ## Declarations -/

/-- A declaration that is read mentions the name it declares. -/
theorem readDecl_mentions {line : List Tok} {g : Global} (h : readDecl line = some g) :
    mentions g.name line = true := by
  unfold readDecl at h
  split at h
  · rename_i x lit
    cases hv : litValue lit with
    | none => simp [hv] at h
    | some v =>
      simp only [hv, Option.map_some', Option.some.injEq] at h
      subst h
      simp [mentions]
  · rename_i x lit
    cases hv : litValue lit with
    | none => simp [hv] at h
    | some v =>
      simp only [hv, Option.map_some', Option.some.injEq] at h
      subst h
      simp [mentions]
  · cases h

/-- Text that does not mention a name declares no global of that name. -/
theorem find_globals_none (out : List (List Tok)) (x : String)
    (h : ∀ l ∈ out, mentions x l = false) :
    (out.filterMap readDecl).find? (fun g => decide (g.name = x)) = none := by
  rw [List.find?_eq_none]
  intro g hg
  obtain ⟨l, hl, hr⟩ := List.mem_filterMap.mp hg
  have hm := readDecl_mentions hr
  intro hname
  have hname : g.name = x := by simpa using hname
  rw [hname, h l hl] at hm
  cases hm

/-- The parts of `fresh`, one by one. -/
theorem fresh_parts {tu : TU} (h : fresh tu = true) :
    LEDGEND_SETUP tu = false ∧ isDefined "const" tu.defs = false ∧
      isDefined "char" tu.defs = false ∧ isDefined "ssid" tu.defs = false ∧
      isDefined "password" tu.defs = false ∧
      (∀ l ∈ tu.out, mentions "ssid" l = false) ∧
      (∀ l ∈ tu.out, mentions "password" l = false) := by
  simp only [fresh, Bool.and_eq_true, Bool.not_eq_true', List.all_eq_true] at h
  obtain ⟨⟨⟨⟨⟨h1, h2⟩, h3⟩, h4⟩, h5⟩, h6⟩ := h
  exact ⟨h1, h2, h3, h4, h5, fun l hl => (h6 l hl).1, fun l hl => (h6 l hl).2⟩

/-- Including the header into a fresh translation unit: the emitted lines
are the two declarations exactly as written. -/
theorem include_header_fresh (s p : String) (a n : Nat) (tu : TU) (h : fresh tu = true) :
    includeFile (header s p a n) tu =
      { defs := addDef "INCOMING_DMX_RINGBUFFER_SIZE" [.num n]
                  (addDef "FASTLED_ALLOW_INTERRUPTS" [.num a]
                    (addDef "LEDGEND_SETUP" [] tu.defs)),
        out := tu.out ++
          [[.ident "const", .ident "char", .punct "*", .ident "ssid", .punct "=",
              .str s, .punct ";"],
           [.ident "const", .ident "char", .punct "*", .ident "password", .punct "=",
              .str p, .punct ";"]] } := by
  obtain ⟨hg, hconst, hchar, hs, hp, _, _⟩ := fresh_parts h
  rw [include_header_unguarded s p a n tu hg,
    expand_decl_fresh tu "ssid" s hconst hchar hs (by decide),
    expand_decl_fresh tu "password" p hconst hchar hp (by decide)]

/-- The globals after the header has been included into a fresh translation
unit: the earlier ones, then `ssid` and `password`, each a non-`const`
pointer to the array of its literal. -/
theorem globals_include_fresh (s p : String) (a n : Nat) (tu : TU) (h : fresh tu = true)
    (vs vp : List Nat) (hs : litValue s = some vs) (hp : litValue p = some vp) :
    globals (includeFile (header s p a n) tu) =
      globals tu ++ [⟨"ssid", vs ++ [0], false⟩, ⟨"password", vp ++ [0], false⟩] := by
  rw [include_header_fresh s p a n tu h]
  simp [globals, List.filterMap_append, readDecl, hs, hp]

/-- Looking the two globals up after the header has been included into a
fresh translation unit. -/
theorem find_globals_include_fresh (s p : String) (a n : Nat) (tu : TU) (h : fresh tu = true)
    (vs vp : List Nat) (hs : litValue s = some vs) (hp : litValue p = some vp) :
    (globals (includeFile (header s p a n) tu)).find? (fun g => decide (g.name = "ssid"))
        = some ⟨"ssid", vs ++ [0], false⟩ ∧
      (globals (includeFile (header s p a n) tu)).find? (fun g => decide (g.name = "password"))
        = some ⟨"password", vp ++ [0], false⟩ := by
  obtain ⟨_, _, _, _, _, hms, hmp⟩ := fresh_parts h
  have h1 := find_globals_none tu.out "ssid" hms
  have h2 := find_globals_none tu.out "password" hmp
  rw [globals_include_fresh s p a n tu h vs vp hs hp]
  simp only [globals] at h1 h2 ⊢
  constructor
  · simp [List.find?_append, h1]
  · simp [List.find?_append, h2]

/-- The C strings the two globals expose after the header has been included
into a fresh translation unit: each literal's value up to its first NUL. -/
theorem values_include_fresh (s p : String) (a n : Nat) (tu : TU) (h : fresh tu = true)
    (vs vp : List Nat) (hs : litValue s = some vs) (hp : litValue p = some vp) :
    ssid (includeFile (header s p a n) tu) = some (cString (vs ++ [0])) ∧
      password (includeFile (header s p a n) tu) = some (cString (vp ++ [0])) := by
  obtain ⟨h1, h2⟩ := find_globals_include_fresh s p a n tu h vs vp hs hp
  simp [ssid, password, globalValue, h1, h2]

/-- Replacement of the two constant names, wherever the header is not
skipped. -/
theorem expand_consts_unguarded (s p : String) (a n : Nat) (tu : TU)
    (h : LEDGEND_SETUP tu = false) :
    expand (includeFile (header s p a n) tu).defs [.ident "FASTLED_ALLOW_INTERRUPTS"]
        = [.num a] ∧
      expand (includeFile (header s p a n) tu).defs [.ident "INCOMING_DMX_RINGBUFFER_SIZE"]
        = [.num n] := by
  rw [include_header_unguarded s p a n tu h]
  constructor
  · simp [expand, addDef, expandTok, lookupDef, undefine, expandTok_num]
  · simp [expand, addDef, expandTok, lookupDef, expandTok_num]

/-- The two constants of the header, wherever the header is not skipped. -/
theorem consts_include_unguarded (s p : String) (a n : Nat) (tu : TU)
    (h : LEDGEND_SETUP tu = false) :
    FASTLED_ALLOW_INTERRUPTS (includeFile (header s p a n) tu) = some a ∧
      INCOMING_DMX_RINGBUFFER_SIZE (includeFile (header s p a n) tu) = some n := by
  obtain ⟨h1, h2⟩ := expand_consts_unguarded s p a n tu h
  simp [FASTLED_ALLOW_INTERRUPTS, INCOMING_DMX_RINGBUFFER_SIZE, constValue, h1, h2]

/-! ## Code that uses the header -/

/-- After the header the two constant names denote their integers. -/
theorem resolve_consts (s p : String) (a n : Nat) (tu : TU) (h : LEDGEND_SETUP tu = false) :
    resolve (includeFile (header s p a n) tu) "FASTLED_ALLOW_INTERRUPTS" = .constant a ∧
      resolve (includeFile (header s p a n) tu) "INCOMING_DMX_RINGBUFFER_SIZE"
        = .constant n := by
  obtain ⟨h1, h2⟩ := expand_consts_unguarded s p a n tu h
  simp [resolve, h1, h2]

/-- After the header, in a fresh translation unit, `ssid` and `password`
denote the two pointer variables. -/
theorem resolve_globals (s p : String) (a n : Nat) (tu : TU) (h : fresh tu = true)
    (vs vp : List Nat) (hs : litValue s = some vs) (hp : litValue p = some vp) :
    resolve (includeFile (header s p a n) tu) "ssid" = .pointer ⟨"ssid", vs ++ [0], false⟩ ∧
      resolve (includeFile (header s p a n) tu) "password"
        = .pointer ⟨"password", vp ++ [0], false⟩ := by
  obtain ⟨h1, h2⟩ := find_globals_include_fresh s p a n tu h vs vp hs hp
  obtain ⟨_, _, _, hds, hdp, _, _⟩ := fresh_parts h
  have hds := lookupDef_of_not_defined hds
  have hdp := lookupDef_of_not_defined hdp
  have e1 : expand (includeFile (header s p a n) tu).defs [.ident "ssid"] = [.ident "ssid"] := by
    apply expand_unbound
    intro y hy
    simp only [List.mem_singleton, Tok.ident.injEq] at hy
    subst hy
    rw [include_header_fresh s p a n tu h]
    show lookupDef "ssid" (addDef _ _ (addDef _ _ (addDef _ _ tu.defs))) = none
    rw [lookupDef_addDef_ne (by decide), lookupDef_addDef_ne (by decide),
      lookupDef_addDef_ne (by decide)]
    exact hds
  have e2 : expand (includeFile (header s p a n) tu).defs [.ident "password"]
      = [.ident "password"] := by
    apply expand_unbound
    intro y hy
    simp only [List.mem_singleton, Tok.ident.injEq] at hy
    subst hy
    rw [include_header_fresh s p a n tu h]
    show lookupDef "password" (addDef _ _ (addDef _ _ (addDef _ _ tu.defs))) = none
    rw [lookupDef_addDef_ne (by decide), lookupDef_addDef_ne (by decide),
      lookupDef_addDef_ne (by decide)]
    exact hdp
  simp [resolve, e1, e2, h1, h2]

/-- A store to one pointer variable leaves the others where they point. -/
theorem Runtime.pointee_set_ne (r : Runtime) {g g1 : String} (hne : g1 ≠ g)
    (array : List Nat) : (r.set g1 array).pointee g = r.pointee g := by
  obtain ⟨vars⟩ := r
  simp only [Runtime.set, Runtime.pointee]
  congr 1
  induction vars with
  | nil => rfl
  | cons v rest ih =>
    by_cases hv : v.1 = g1
    · have hvg : ¬ v.1 = g := fun e => hne (hv.symm.trans e)
      simp only [List.map_cons, List.find?_cons, hv, if_true, hne, hvg, decide_False]
      exact ih
    · by_cases hvg : v.1 = g
      · have hgg : ¬ g = g1 := fun e => hv (hvg.trans e)
        simp only [List.map_cons, List.find?_cons, hv, if_false, hvg, hgg, decide_True]
      · simp only [List.map_cons, List.find?_cons, hv, if_false, hvg, decide_False]
        exact ih

/-- Operations that do not store to a pointer variable leave it where it
points. -/
theorem Runtime.pointee_run (g : String) (ops : List Op) :
    ∀ r : Runtime, assigns g ops = false → (r.run ops).pointee g = r.pointee g := by
  induction ops with
  | nil => intro r _; rfl
  | cons op rest ih =>
    intro r h
    simp only [assigns, List.any_cons, Bool.or_eq_false_iff] at h
    obtain ⟨hop, hrest⟩ := h
    have hstep : (r.exec op).1.pointee g = r.pointee g := by
      cases op with
      | readInt n => rfl
      | readPtr g1 => rfl
      | setPtr g1 array =>
        have hne : g1 ≠ g := by simpa using hop
        exact Runtime.pointee_set_ne r hne array
    have := ih (r.exec op).1 hrest
    simp only [Runtime.run, List.foldl_cons] at this ⊢
    rw [this, hstep]

/-- At power-up a pointer variable points to the array of its declaration. -/
theorem pointee_boot (tu : TU) (g : String) :
    (boot tu).pointee g
      = ((globals tu).find? (fun d => decide (d.name = g))).map Global.array := by
  simp only [boot, Runtime.pointee]
  induction globals tu with
  | nil => rfl
  | cons d rest ih =>
    by_cases hd : d.name = g
    · simp only [List.map_cons, List.find?_cons, hd, decide_True, Option.map_some']
    · simp only [List.map_cons, List.find?_cons, hd, decide_False]
      exact ih

/-! ## The properties of the header -/

/-- C1: wherever the header is included with its guard not yet defined, the
ring-buffer depth `INCOMING_DMX_RINGBUFFER_SIZE` it defines is an integer
strictly greater than zero. -/
theorem ringbuffer_size_positive (tu : TU) (h : LEDGEND_SETUP tu = false) :
    ∃ n : Nat, INCOMING_DMX_RINGBUFFER_SIZE (includeFile ledgend_setup_h tu) = some n ∧ 0 < n :=
  ⟨3, (consts_include_unguarded "<ssid>" "<password>" 0 3 tu h).2, by decide⟩

theorem ringbuffer_size_positive_witness :
    LEDGEND_SETUP TU.empty = false ∧
      ∃ n : Nat, INCOMING_DMX_RINGBUFFER_SIZE (includeFile ledgend_setup_h TU.empty) = some n
        ∧ 0 < n :=
  ⟨by decide, ringbuffer_size_positive TU.empty (by decide)⟩

/-- C2: wherever the header is included with its guard not yet defined, the
interrupt-allowance flag `FASTLED_ALLOW_INTERRUPTS` it defines has a value in
the set {0, 1}. -/
theorem allow_interrupts_is_flag (tu : TU) (h : LEDGEND_SETUP tu = false) :
    ∃ v : Nat, FASTLED_ALLOW_INTERRUPTS (includeFile ledgend_setup_h tu) = some v ∧
      (v = 0 ∨ v = 1) :=
  ⟨0, (consts_include_unguarded "<ssid>" "<password>" 0 3 tu h).1, Or.inl rfl⟩

theorem allow_interrupts_is_flag_witness :
    LEDGEND_SETUP TU.empty = false ∧
      ∃ v : Nat, FASTLED_ALLOW_INTERRUPTS (includeFile ledgend_setup_h TU.empty) = some v ∧
        (v = 0 ∨ v = 1) :=
  ⟨by decide, allow_interrupts_is_flag TU.empty (by decide)⟩

/-- C3: the ring-buffer depth as shipped is exactly 3: wherever the header is
included with its guard not yet defined, `INCOMING_DMX_RINGBUFFER_SIZE`
stands for the integer 3 afterwards. -/
theorem ringbuffer_size_default (tu : TU) (h : LEDGEND_SETUP tu = false) :
    INCOMING_DMX_RINGBUFFER_SIZE (includeFile ledgend_setup_h tu) = some 3 :=
  (consts_include_unguarded "<ssid>" "<password>" 0 3 tu h).2

theorem ringbuffer_size_default_witness :
    LEDGEND_SETUP TU.empty = false ∧
      INCOMING_DMX_RINGBUFFER_SIZE (includeFile ledgend_setup_h TU.empty) = some 3 :=
  ⟨by decide, ringbuffer_size_default TU.empty (by decide)⟩

/-- C4: wherever the header is included with its guard not yet defined,
`FASTLED_ALLOW_INTERRUPTS` as shipped is 0 (interrupts not allowed), not 1;
the value 1 (interrupts allowed) is what the header gives once line 11 has
been edited to say 1. -/
theorem allow_interrupts_default_off (tu : TU) (h : LEDGEND_SETUP tu = false) :
    FASTLED_ALLOW_INTERRUPTS (includeFile ledgend_setup_h tu) = some 0 ∧
      FASTLED_ALLOW_INTERRUPTS (includeFile ledgend_setup_h tu) ≠ some 1 ∧
      FASTLED_ALLOW_INTERRUPTS (includeFile (header "<ssid>" "<password>" 1 3) tu) = some 1 := by
  have h0 := (consts_include_unguarded "<ssid>" "<password>" 0 3 tu h).1
  have h1 := (consts_include_unguarded "<ssid>" "<password>" 1 3 tu h).1
  refine ⟨h0, ?_, h1⟩
  unfold ledgend_setup_h
  rw [h0]
  decide

theorem allow_interrupts_default_off_witness :
    LEDGEND_SETUP TU.empty = false ∧
      FASTLED_ALLOW_INTERRUPTS (includeFile ledgend_setup_h TU.empty) = some 0 ∧
      FASTLED_ALLOW_INTERRUPTS (includeFile ledgend_setup_h TU.empty) ≠ some 1 ∧
      FASTLED_ALLOW_INTERRUPTS (includeFile (header "<ssid>" "<password>" 1 3) TU.empty)
        = some 1 :=
  ⟨by decide, allow_interrupts_default_off TU.empty (by decide)⟩

/-- The shipped placeholders are plain text without NUL. -/
theorem shipped_literals :
    litValue "<ssid>" = some (bytesOf "<ssid>") ∧
      litValue "<password>" = some (bytesOf "<password>") ∧
      0 ∉ bytesOf "<ssid>" ∧ 0 ∉ bytesOf "<password>" := by
  decide

/-- A pointer declared `const char* const` cannot be assigned to: the
statement is rejected. -/
theorem assign_to_const_pointer_rejected :
    compile ⟨[], [[.ident "const", .ident "char", .punct "*", .ident "const", .ident "ssid",
        .punct "=", .str "<ssid>", .punct ";"]]⟩ (.assign "ssid" "other") = none := by
  decide

/-- C5, amended: whatever two string literals stand in lines 5 and 6 of the
header, if their values (after escape processing) contain no NUL then, once
the header is included into a fresh translation unit, the C strings exposed
as `ssid` and `password` are exactly those values; for a literal written
without escape sequences the value is the text as written.  As shipped they
are the placeholders `<ssid>` and `<password>`. -/
theorem credentials_pass_through (tu : TU) (h : fresh tu = true) (s p : String) (a n : Nat)
    (vs vp : List Nat) (hs : litValue s = some vs) (hp : litValue p = some vp)
    (hs0 : 0 ∉ vs) (hp0 : 0 ∉ vp) :
    (ssid (includeFile (header s p a n) tu) = some vs ∧
      password (includeFile (header s p a n) tu) = some vp) ∧
    ((isPlain s = true → vs = bytesOf s) ∧ (isPlain p = true → vp = bytesOf p)) ∧
    (ssid (includeFile ledgend_setup_h tu) = some (bytesOf "<ssid>") ∧
      password (includeFile ledgend_setup_h tu) = some (bytesOf "<password>")) := by
  obtain ⟨k1, k2, k3, k4⟩ := shipped_literals
  have hv := values_include_fresh s p a n tu h vs vp hs hp
  have hship := values_include_fresh "<ssid>" "<password>" 0 3 tu h _ _ k1 k2
  rw [cString_append_nul vs hs0, cString_append_nul vp hp0] at hv
  rw [cString_append_nul _ k3, cString_append_nul _ k4] at hship
  refine ⟨hv, ⟨?_, ?_⟩, hship⟩
  · intro hpl
    have := litValue_plain s hpl
    rw [hs] at this
    exact Option.some.inj this
  · intro hpl
    have := litValue_plain p hpl
    rw [hp] at this
    exact Option.some.inj this

theorem credentials_pass_through_witness :
    fresh TU.empty = true ∧
      litValue "home net" = some (bytesOf "home net") ∧
      litValue "pa55\\tword" = some [112, 97, 53, 53, 9, 119, 111, 114, 100] ∧
      0 ∉ bytesOf "home net" ∧ 0 ∉ [112, 97, 53, 53, 9, 119, 111, 114, 100] ∧
      ((ssid (includeFile (header "home net" "pa55\\tword" 1 8) TU.empty)
          = some (bytesOf "home net") ∧
        password (includeFile (header "home net" "pa55\\tword" 1 8) TU.empty)
          = some [112, 97, 53, 53, 9, 119, 111, 114, 100]) ∧
      ((isPlain "home net" = true → bytesOf "home net" = bytesOf "home net") ∧
        (isPlain "pa55\\tword" = true →
          [112, 97, 53, 53, 9, 119, 111, 114, 100] = bytesOf "pa55\\tword")) ∧
      (ssid (includeFile ledgend_setup_h TU.empty) = some (bytesOf "<ssid>") ∧
        password (includeFile ledgend_setup_h TU.empty) = some (bytesOf "<password>"))) :=
  ⟨by decide, by decide, by decide, by decide, by decide,
    credentials_pass_through TU.empty (by decide) "home net" "pa55\\tword" 1 8
      (bytesOf "home net") [112, 97, 53, 53, 9, 119, 111, 114, 100]
      (by decide) (by decide) (by decide) (by decide)⟩

/-- C5 as stated fails: with the literal `"ab\0cd"` in line 5 the value
written has five bytes, a, b, NUL, c, d, and the C string exposed as `ssid`
is `ab`: neither the value nor the text between the quotes. -/
theorem credentials_cut_at_nul :
    fresh TU.empty = true ∧
      litValue "ab\\0cd" = some [97, 98, 0, 99, 100] ∧
      ssid (includeFile (header "ab\\0cd" "<password>" 0 3) TU.empty) = some [97, 98] ∧
      ssid (includeFile (header "ab\\0cd" "<password>" 0 3) TU.empty)
        ≠ some [97, 98, 0, 99, 100] ∧
      ssid (includeFile (header "ab\\0cd" "<password>" 0 3) TU.empty)
        ≠ some (bytesOf "ab\\0cd") := by
  decide

/-- C6, amended: with the shipped header included into a fresh translation
unit, after any sequence of operations `FASTLED_ALLOW_INTERRUPTS` is 0 and
`INCOMING_DMX_RINGBUFFER_SIZE` is 3, and no assignment to either is accepted;
`ssid` is `<ssid>` as long as no operation has stored to `ssid`, and
`password` is `<password>` as long as no operation has stored to
`password`. -/
theorem config_fixed_unless_assigned (tu : TU) (h : fresh tu = true) (ops : List Op) :
    valueOf (includeFile ledgend_setup_h tu) ((boot (includeFile ledgend_setup_h tu)).run ops)
        "FASTLED_ALLOW_INTERRUPTS" = some (.int 0) ∧
    valueOf (includeFile ledgend_setup_h tu) ((boot (includeFile ledgend_setup_h tu)).run ops)
        "INCOMING_DMX_RINGBUFFER_SIZE" = some (.int 3) ∧
    (∀ lit : String,
      compile (includeFile ledgend_setup_h tu) (.assign "FASTLED_ALLOW_INTERRUPTS" lit) = none ∧
      compile (includeFile ledgend_setup_h tu) (.assign "INCOMING_DMX_RINGBUFFER_SIZE" lit)
        = none) ∧
    (assigns "ssid" ops = false →
      valueOf (includeFile ledgend_setup_h tu) ((boot (includeFile ledgend_setup_h tu)).run ops)
        "ssid" = some (.text (some (bytesOf "<ssid>")))) ∧
    (assigns "password" ops = false →
      valueOf (includeFile ledgend_setup_h tu) ((boot (includeFile ledgend_setup_h tu)).run ops)
        "password" = some (.text (some (bytesOf "<password>")))) := by
  obtain ⟨k1, k2, k3, k4⟩ := shipped_literals
  obtain ⟨c1, c2⟩ := resolve_consts "<ssid>" "<password>" 0 3 tu (fresh_parts h).1
  obtain ⟨g1, g2⟩ := resolve_globals "<ssid>" "<password>" 0 3 tu h _ _ k1 k2
  obtain ⟨f1, f2⟩ := find_globals_include_fresh "<ssid>" "<password>" 0 3 tu h _ _ k1 k2
  unfold ledgend_setup_h
  refine ⟨?_, ?_, ?_, ?_, ?_⟩
  · simp [valueOf, compile, c1, Runtime.exec]
  · simp [valueOf, compile, c2, Runtime.exec]
  · intro lit
    simp [compile, c1, c2]
  · intro hno
    simp only [valueOf, compile, g1, Option.map_some', Runtime.exec,
      Runtime.pointee_run "ssid" ops _ hno, pointee_boot, f1, cString_append_nul _ k3]
  · intro hno
    simp only [valueOf, compile, g2, Option.map_some', Runtime.exec,
      Runtime.pointee_run "password" ops _ hno, pointee_boot, f2, cString_append_nul _ k4]

theorem config_fixed_unless_assigned_witness :
    fresh TU.empty = true ∧
    (valueOf (includeFile ledgend_setup_h TU.empty)
        ((boot (includeFile ledgend_setup_h TU.empty)).run
          [.readPtr "ssid", .setPtr "password" [115, 51, 99, 0], .readInt 3])
        "FASTLED_ALLOW_INTERRUPTS" = some (.int 0) ∧
    valueOf (includeFile ledgend_setup_h TU.empty)
        ((boot (includeFile ledgend_setup_h TU.empty)).run
          [.readPtr "ssid", .setPtr "password" [115, 51, 99, 0], .readInt 3])
        "INCOMING_DMX_RINGBUFFER_SIZE" = some (.int 3) ∧
    (∀ lit : String,
      compile (includeFile ledgend_setup_h TU.empty)
        (.assign "FASTLED_ALLOW_INTERRUPTS" lit) = none ∧
      compile (includeFile ledgend_setup_h TU.empty)
        (.assign "INCOMING_DMX_RINGBUFFER_SIZE" lit) = none) ∧
    (assigns "ssid" [.readPtr "ssid", .setPtr "password" [115, 51, 99, 0], .readInt 3] = false →
      valueOf (includeFile ledgend_setup_h TU.empty)
        ((boot (includeFile ledgend_setup_h TU.empty)).run
          [.readPtr "ssid", .setPtr "password" [115, 51, 99, 0], .readInt 3])
        "ssid" = some (.text (some (bytesOf "<ssid>")))) ∧
    (assigns "password" [.readPtr "ssid", .setPtr "password" [115, 51, 99, 0], .readInt 3]
        = false →
      valueOf (includeFile ledgend_setup_h TU.empty)
        ((boot (includeFile ledgend_setup_h TU.empty)).run
          [.readPtr "ssid", .setPtr "password" [115, 51, 99, 0], .readInt 3])
        "password" = some (.text (some (bytesOf "<password>"))))) :=
  ⟨by decide, config_fixed_unless_assigned TU.empty (by decide)
    [.readPtr "ssid", .setPtr "password" [115, 51, 99, 0], .readInt 3]⟩

/-- C6 as stated fails: the statement `ssid = "other";` is accepted after
the shipped header, because line 5 declares the pointer itself without
`const`, and in the state it leads to `ssid` is `other`, not `<ssid>`. -/
theorem ssid_can_be_reassigned :
    compileAll (includeFile ledgend_setup_h TU.empty) [.assign "ssid" "other"]
        = some [.setPtr "ssid" [111, 116, 104, 101, 114, 0]] ∧
      valueOf (includeFile ledgend_setup_h TU.empty)
        ((boot (includeFile ledgend_setup_h TU.empty)).run
          [.setPtr "ssid" [111, 116, 104, 101, 114, 0]]) "ssid"
        = some (.text (some (bytesOf "other"))) ∧
      valueOf (includeFile ledgend_setup_h TU.empty)
        ((boot (includeFile ledgend_setup_h TU.empty)).run
          [.setPtr "ssid" [111, 116, 104, 101, 114, 0]]) "ssid"
        ≠ some (.text (some (bytesOf "<ssid>"))) := by
  decide

/-- C7: changing the value of `FASTLED_ALLOW_INTERRUPTS` (from `a` to `a'`)
leaves the emitted declarations, `ssid`, `password` and
`INCOMING_DMX_RINGBUFFER_SIZE` unchanged, and changing the value of
`INCOMING_DMX_RINGBUFFER_SIZE` (from `n` to `n'`) leaves the emitted
declarations, `ssid`, `password` and `FASTLED_ALLOW_INTERRUPTS` unchanged,
in every translation unit. -/
theorem constants_independent (tu : TU) (s p : String) (a a' n n' : Nat) :
    ((includeFile (header s p a' n) tu).out = (includeFile (header s p a n) tu).out ∧
      ssid (includeFile (header s p a' n) tu) = ssid (includeFile (header s p a n) tu) ∧
      password (includeFile (header s p a' n) tu)
        = password (includeFile (header s p a n) tu) ∧
      INCOMING_DMX_RINGBUFFER_SIZE (includeFile (header s p a' n) tu)
        = INCOMING_DMX_RINGBUFFER_SIZE (includeFile (header s p a n) tu)) ∧
    ((includeFile (header s p a n') tu).out = (includeFile (header s p a n) tu).out ∧
      ssid (includeFile (header s p a n') tu) = ssid (includeFile (header s p a n) tu) ∧
      password (includeFile (header s p a n') tu)
        = password (includeFile (header s p a n) tu) ∧
      FASTLED_ALLOW_INTERRUPTS (includeFile (header s p a n') tu)
        = FASTLED_ALLOW_INTERRUPTS (includeFile (header s p a n) tu)) := by
  cases h : LEDGEND_SETUP tu with
  | true =>
    simp only [include_header_guarded _ _ _ _ tu h, and_self]
  | false =>
    have hout : ∀ b b' m m',
        (includeFile (header s p b' m') tu).out = (includeFile (header s p b m) tu).out := by
      intro b b' m m'
      rw [include_header_unguarded s p b' m' tu h, include_header_unguarded s p b m tu h]
    have hc := consts_include_unguarded s p a n tu h
    have hca := consts_include_unguarded s p a' n tu h
    have hcn := consts_include_unguarded s p a n' tu h
    refine ⟨⟨hout _ _ _ _, ?_, ?_, ?_⟩, ⟨hout _ _ _ _, ?_, ?_, ?_⟩⟩
    · simp only [ssid, globalValue, globals, hout a a' n n]
    · simp only [password, globalValue, globals, hout a a' n n]
    · rw [hca.2, hc.2]
    · simp only [ssid, globalValue, globals, hout a a n n']
    · simp only [password, globalValue, globals, hout a a n n']
    · rw [hcn.1, hc.1]

/-- C8: including the header is idempotent.  Once it has been included the
guard `LEDGEND_SETUP` is defined, a further inclusion changes nothing (no
definition and no declaration is added), and including it `n` times in a
row, `n` at least 1, gives the same translation unit as including it once. -/
theorem include_idempotent (tu : TU) (n : Nat) (h : 1 ≤ n) :
    LEDGEND_SETUP (includeFile ledgend_setup_h tu) = true ∧
      includeFile ledgend_setup_h (includeFile ledgend_setup_h tu)
        = includeFile ledgend_setup_h tu ∧
      includeTimes ledgend_setup_h n tu = includeFile ledgend_setup_h tu := by
  have hg : LEDGEND_SETUP (includeFile ledgend_setup_h tu) = true :=
    guard_defined_after_include _ _ _ _ tu
  have h2 : includeFile ledgend_setup_h (includeFile ledgend_setup_h tu)
      = includeFile ledgend_setup_h tu :=
    include_header_guarded _ _ _ _ _ hg
  refine ⟨hg, h2, ?_⟩
  induction n with
  | zero => omega
  | succ k ih =>
    cases k with
    | zero => rfl
    | succ j =>
      have hj := ih (by omega)
      show includeFile ledgend_setup_h (includeTimes ledgend_setup_h (j + 1) tu) = _
      rw [hj, h2]

theorem include_idempotent_witness :
    1 ≤ 3 ∧
      LEDGEND_SETUP (includeFile ledgend_setup_h TU.empty) = true ∧
      includeFile ledgend_setup_h (includeFile ledgend_setup_h TU.empty)
        = includeFile ledgend_setup_h TU.empty ∧
      includeTimes ledgend_setup_h 3 TU.empty = includeFile ledgend_setup_h TU.empty :=
  ⟨by decide, include_idempotent TU.empty 3 (by decide)⟩

end Ledgend
